import Mathlib

/-!
Shallow embedding of `src/watermark_cli.py` (a date-stamp watermark CLI) and
verification of its specification claims.

Paths are modelled as lists of path components.  Python integers are `Int`
(Python `//` is floor division, `Int.fdiv`), machine-independent.  Strings are
Lean `String`s.  Pillow (`PIL`) calls are external-library operations; they are
modelled by their documented semantics (see the comments at each definition).
-/

namespace Watermark

/-- A filesystem path, as its list of components (root-most first). -/
abbrev FPath := List String

/-- `Path.name`: the final component of a path (empty for the root). -/
def pathName (p : FPath) : String := p.getLast?.getD ""

/-- `Path.parent`: the path with its final component removed. -/
def parentPath (p : FPath) : FPath := p.dropLast

/-! ## compute_position (watermark_cli.py lines 145-169) -/

/-- Embedding of `compute_position(image_size, text_size, position_key, margin)`.
Python `max(a, b)` is `max`, Python `//` (floor division) is `Int.fdiv`. -/
def compute_position (image_size : Int × Int) (text_size : Int × Int)
    (position_key : String) (margin : Int) : Int × Int :=
  let img_w := image_size.1
  let img_h := image_size.2
  let text_w := text_size.1
  let text_h := text_size.2
  if position_key = "left_top" then (margin, margin)
  else if position_key = "left_bottom" then (margin, max (img_h - text_h - margin) 0)
  else if position_key = "right_top" then (max (img_w - text_w - margin) 0, margin)
  else if position_key = "right_bottom" then
    (max (img_w - text_w - margin) 0, max (img_h - text_h - margin) 0)
  else if position_key = "center" then
    (Int.fdiv (img_w - text_w) 2, Int.fdiv (img_h - text_h) 2)
  else if position_key = "top_center" then (Int.fdiv (img_w - text_w) 2, margin)
  else if position_key = "bottom_center" then
    (Int.fdiv (img_w - text_w) 2, max (img_h - text_h - margin) 0)
  else (margin, margin)

/-- The 7-anchor formula table of spec section 4.4, written from the spec's
words (margin `m` = 12; `/` read as Python's integer floor division), with the
spec's fallback "Unknown anchor keys fall back to `left_top`". -/
def spec_anchor_table (W H w h : Int) (anchor : String) : Int × Int :=
  let m : Int := 12
  if anchor = "left_top" then (m, m)
  else if anchor = "left_bottom" then (m, max (H - h - m) 0)
  else if anchor = "right_top" then (max (W - w - m) 0, m)
  else if anchor = "right_bottom" then (max (W - w - m) 0, max (H - h - m) 0)
  else if anchor = "center" then (Int.fdiv (W - w) 2, Int.fdiv (H - h) 2)
  else if anchor = "top_center" then (Int.fdiv (W - w) 2, m)
  else if anchor = "bottom_center" then (Int.fdiv (W - w) 2, max (H - h - m) 0)
  else (m, m)

/-- The seven anchor names. -/
def anchorKeys : List String :=
  ["left_top", "left_bottom", "right_top", "right_bottom", "center",
   "top_center", "bottom_center"]

/-! ## extract_exif_date (watermark_cli.py lines 97-142) -/

/-- Split a character list at every occurrence of `sep` (Python
`str.split(sep)` for a one-character separator: empty pieces kept, the empty
string yielding `[""]`). -/
def splitOnChar (sep : Char) : List Char → List (List Char)
  | [] => [[]]
  | x :: xs =>
    match splitOnChar sep xs with
    | [] => if x = sep then [[], []] else [[x]]
    | y :: ys => if x = sep then [] :: y :: ys else (x :: y) :: ys

/-- Python `str.split(sep)` on a `String`, one-character separator. -/
def pySplit (sep : Char) (s : String) : List String :=
  (splitOnChar sep s.data).map String.mk

/-- Python `str.strip()`: surrounding whitespace removed. -/
def pyStrip (cs : List Char) : List Char :=
  ((cs.dropWhile Char.isWhitespace).reverse.dropWhile Char.isWhitespace).reverse

/-- Decimal value of a digit string; `none` when empty or a non-digit occurs.
Inner loop of Python `int(...)`. -/
def digitsToNat (cs : List Char) : Option Nat :=
  if cs.isEmpty then none
  else cs.foldl
    (fun acc c => acc.bind (fun n => if c.isDigit then some (n * 10 + (c.toNat - 48)) else none))
    (some 0)

/-- Models Python `int(str)`: surrounding whitespace stripped, optional
sign, decimal digits, failure as `none` (so a Lean `match` on it mirrors the
`try`/`except ValueError`).  Digit-group underscores are not modelled; no
claim's inputs use them. -/
def pyInt (s : String) : Option Int :=
  match pyStrip s.data with
  | '-' :: rest => (digitsToNat rest).map (fun n => -(n : Int))
  | '+' :: rest => (digitsToNat rest).map (fun n => (n : Int))
  | cs => (digitsToNat cs).map (fun n => (n : Int))

/-- Left-pad a natural number with zeros to `width` digits (Python `{n:0Nd}`
for nonnegative `n`). -/
def padNat (width : Nat) (n : Nat) : String :=
  String.mk (List.replicate (width - (toString n).length) '0') ++ toString n

/-- Python `f"{n:0Nd}"`: zero-pad to `width`, the sign counted in the width. -/
def padInt (width : Nat) (n : Int) : String :=
  if n < 0 then "-" ++ padNat (width - 1) n.natAbs else padNat width n.toNat

/-- `f"{int(yyyy):04d}-{int(mm):02d}-{int(dd):02d}"`. -/
def fmt_date (y mo d : Int) : String :=
  padInt 4 y ++ "-" ++ padInt 2 mo ++ "-" ++ padInt 2 d

/-- `date_value.split(" ")[0]`: the first space-delimited token. -/
def firstToken (v : String) : String := (pySplit ' ' v).headD ""

/-- `a, b, c = tok.split(sep)` followed by `int(a), int(b), int(c)`: succeeds
iff the split has exactly three fields and each parses as an integer
(otherwise the `except` branch is taken, modelled as `none`). -/
def parse3 (sep : Char) (tok : String) : Option (Int × Int × Int) :=
  match pySplit sep tok with
  | [a, b, c] =>
    match pyInt a, pyInt b, pyInt c with
    | some y, some mo, some d => some (y, mo, d)
    | _, _, _ => none
  | _ => none

/-- The date-normalization tail of `extract_exif_date` (lines 130-142): colon
format first, hyphen format as fallback, `none` when both fail. -/
def parse_date_value (v : String) : Option String :=
  match parse3 ':' (firstToken v) with
  | some (y, mo, d) => some (fmt_date y mo d)
  | none =>
    match parse3 '-' (firstToken v) with
    | some (y, mo, d) => some (fmt_date y mo d)
    | none => none

/-- The metadata an image hands to `extract_exif_date`.  `exif` models
`image.getexif()` as an association list from numeric tag to string value
(`none` = the call raised); `legacyExif` models `image._getexif()` (`none` =
it raised, returned `None`, or returned a non-dict). -/
structure ImageMeta where
  exif : Option (List (Nat × String))
  legacyExif : Option (List (Nat × String))
deriving DecidableEq

/-- One step of `for tag in (36867, 306): value = exif.get(tag); if value:`:
the tag's value when present and truthy (non-empty). -/
def truthyGet (d : List (Nat × String)) (tag : Nat) : Option String :=
  match d.lookup tag with
  | some v => if v = "" then none else some v
  | none => none

/-- The tag-preference loop: `DateTimeOriginal` (36867) first, then
`DateTime` (306); first truthy value wins. -/
def tagDateValue (d : List (Nat × String)) : Option String :=
  (truthyGet d 36867).orElse (fun _ => truthyGet d 306)

/-- `date_value` as of line 127: the modern accessor (guarded by dict
truthiness `if exif:`), then the legacy accessor (guarded by
`if raw and isinstance(raw, dict):`). -/
def dateValueOf (m : ImageMeta) : Option String :=
  let fromNew :=
    match m.exif with
    | some d => if d.isEmpty then none else tagDateValue d
    | none => none
  match fromNew with
  | some v => some v
  | none =>
    match m.legacyExif with
    | some d => if d.isEmpty then none else tagDateValue d
    | none => none

/-- Embedding of `extract_exif_date`: `None` when no truthy tag value is
found, else the parsed/normalized date (itself possibly `None`). -/
def extract_exif_date (m : ImageMeta) : Option String :=
  (dateValueOf m).bind parse_date_value

/-! ## normalize_color_input (watermark_cli.py lines 276-297) -/

/-- `user_input.strip().lower()` (Python `str.lower()` modelled as ASCII
lowering; it is the identity on the table's Chinese keys either way). -/
def canonColor (s : String) : String :=
  String.mk ((pyStrip s.data).map Char.toLower)

/-- The `cn_to_en` table of `normalize_color_input`, in source order. -/
def cn_to_en : List (String × String) :=
  [("白", "white"), ("白色", "white"),
   ("黑", "black"), ("黑色", "black"),
   ("红", "red"), ("红色", "red"),
   ("绿", "green"), ("绿色", "green"),
   ("蓝", "blue"), ("蓝色", "blue"),
   ("黄", "yellow"), ("黄色", "yellow"),
   ("青", "cyan"), ("青色", "cyan"),
   ("洋红", "magenta"), ("品红", "magenta"),
   ("灰", "gray"), ("灰色", "gray"),
   ("橙", "orange"), ("橙色", "orange"),
   ("紫", "purple"), ("紫色", "purple"),
   ("粉", "pink"), ("粉色", "pink"),
   ("棕", "brown"), ("棕色", "brown"), ("褐色", "brown")]

/-- Embedding of `normalize_color_input`: table hit returns the canonical
English name, miss returns the original `user_input` (not the stripped
`s`). -/
def normalize_color_input (user_input : String) : String :=
  match cn_to_en.lookup (canonColor user_input) with
  | some v => v
  | none => user_input

/-! ## ensure_output_dir and process_targets (watermark_cli.py lines 62-67, 227-273) -/

/-- Embedding of `ensure_output_dir`:
`out_dir = original_dir / f"{original_dir.name}_watermark"` — a child of
`original_dir`; the `mkdir(exist_ok=True)` call (create if missing, reuse if
present) is recorded as the `mkdirOut` effect by `process_targets`. -/
def ensure_output_dir (original_dir : FPath) : FPath :=
  original_dir ++ [pathName original_dir ++ "_watermark"]

/-- Render a path for printed messages (components joined by the separator). -/
def pathStr : FPath → String
  | [] => ""
  | [x] => x
  | x :: y :: xs => x ++ "/" ++ pathStr (y :: xs)

/-- The observable actions of a batch run, in order. -/
inductive Effect where
  | mkdirOut (p : FPath)
  | loadFont (size : Nat)
  | printLine (s : String)
  | saveFile (p : FPath)
deriving DecidableEq

/-- What the external world does for one target: `Image.open` raises
(`decodeError`, with the exception's class name and message), or the image
opens with the given metadata and the render/save calls either raise
(`some (cls, msg)`) or succeed (`none`). -/
inductive ItemBehavior where
  | decodeError (cls msg : String)
  | opened (meta : ImageMeta) (renderSaveError : Option (String × String))
deriving DecidableEq

/-- A batch target: its filename plus the world's behavior for it. -/
structure Item where
  name : String
  behavior : ItemBehavior
deriving DecidableEq

/-- How the loop body of `process_targets` ends for one target. -/
inductive Outcome where
  | ok
  | noDate
  | failed
deriving DecidableEq

/-- The one skip reason the code ever records (line 249). -/
def noDateReason : String := "无拍摄时间"

/-- Line 238's message for an empty target set. -/
def noImagesMsg : String := "未发现可处理的图片（jpg/jpeg/png）。"

/-- Line 267: `f"处理失败 {img_path.name}（{exc.__class__.__name__}）：{exc}"`. -/
def failMsg (name cls msg : String) : String :=
  "处理失败 " ++ name ++ "（" ++ cls ++ "）：" ++ msg

/-- Line 250: `f"跳过（{reason}）：{img_path.name}"`. -/
def skipMsg (name : String) : String :=
  "跳过（" ++ noDateReason ++ "）：" ++ name

/-- Line 265: `f"已保存：{out_path}"`. -/
def savedMsg (p : FPath) : String := "已保存：" ++ pathStr p

/-- How the loop body ends on a target (lines 244-267). -/
def outcomeOf (it : Item) : Outcome :=
  match it.behavior with
  | .decodeError _ _ => .failed
  | .opened meta err =>
    match extract_exif_date meta with
    | none => .noDate
    | some _ =>
      match err with
      | some _ => .failed
      | none => .ok

/-- The effects the loop body emits for one target.  They depend only on the
target (the loop's prints and save never read the running tallies). -/
def itemEffects (out : FPath) (it : Item) : List Effect :=
  match it.behavior with
  | .decodeError c m => [.printLine (failMsg it.name c m)]
  | .opened meta err =>
    match extract_exif_date meta with
    | none => [.printLine (skipMsg it.name)]
    | some _ =>
      match err with
      | some (c, m) => [.printLine (failMsg it.name c m)]
      | none => [.saveFile (out ++ [it.name]), .printLine (savedMsg (out ++ [it.name]))]

/-- The running tallies of `process_targets`: `processed`, `skipped`, and the
insertion-ordered `skipped_reasons` dict. -/
structure RunState where
  processed : Nat
  skipped : Nat
  skippedReasons : List (String × Nat)
deriving DecidableEq

/-- `skipped_reasons[reason] = skipped_reasons.get(reason, 0) + 1` on an
insertion-ordered dict. -/
def bumpReason (rs : List (String × Nat)) (r : String) : List (String × Nat) :=
  if rs.any (fun p => p.1 == r) then
    rs.map (fun p => if p.1 == r then (p.1, p.2 + 1) else p)
  else rs ++ [(r, 1)]

/-- Tally update for one loop iteration. -/
def stepState (st : RunState) (o : Outcome) : RunState :=
  match o with
  | .ok => { st with processed := st.processed + 1 }
  | .noDate =>
    { st with skipped := st.skipped + 1,
              skippedReasons := bumpReason st.skippedReasons noDateReason }
  | .failed => st

/-- `processed = 0`, `skipped = 0`, `skipped_reasons = {}` (lines 241-243). -/
def initState : RunState := ⟨0, 0, []⟩

/-- The tallies after the whole loop. -/
def finalState (items : List Item) : RunState :=
  items.foldl (fun st it => stepState st (outcomeOf it)) initState

/-- Python `"；".join(...)`. -/
def joinBy (sep : String) : List String → String
  | [] => ""
  | [x] => x
  | x :: y :: xs => x ++ sep ++ joinBy sep (y :: xs)

/-- Line 270: `"；".join([f"{k} {v} 张" for k, v in skipped_reasons.items()])`. -/
def reasonsStr (rs : List (String × Nat)) : String :=
  joinBy "；" (rs.map (fun p => p.1 ++ " " ++ toString p.2 ++ " 张"))

/-- The final summary line (lines 269-273): with the reason breakdown when
`skipped_reasons` is truthy (non-empty), without it otherwise. -/
def summaryMsg (st : RunState) (out : FPath) : String :=
  if st.skippedReasons.isEmpty then
    "完成。处理成功 " ++ toString st.processed ++ " 张，跳过 " ++
      toString st.skipped ++ " 张。输出目录：" ++ pathStr out
  else
    "完成。处理成功 " ++ toString st.processed ++ " 张，跳过 " ++
      toString st.skipped ++ " 张（原因：" ++ reasonsStr st.skippedReasons ++
      "）。输出目录：" ++ pathStr out

/-- Embedding of `process_targets` as its ordered effect trace: create the
output directory, resolve the font, then either the no-images message (empty
target set) or the per-target effects followed by the summary line. -/
def process_targets (base_dir : FPath) (targets : List Item) (font_size : Nat) :
    List Effect :=
  let out := ensure_output_dir base_dir
  Effect.mkdirOut out :: Effect.loadFont font_size ::
    (if targets.isEmpty then [Effect.printLine noImagesMsg]
     else targets.flatMap (itemEffects out) ++
       [Effect.printLine (summaryMsg (finalState targets) out)])

/-- The files a trace saves, in order. -/
def savesOf (tr : List Effect) : List FPath :=
  tr.filterMap (fun e =>
    match e with
    | .saveFile p => some p
    | _ => none)

/-- Number of targets with the given outcome. -/
def countOutcome (o : Outcome) : List Item → Nat
  | [] => 0
  | it :: tl => (if outcomeOf it = o then 1 else 0) + countOutcome o tl

/-- A successfully decoded image carrying `DateTimeOriginal`, whose render
and save succeed. -/
def okItem (name : String) : Item :=
  ⟨name, .opened ⟨some [(36867, "2023:07:04 10:11:12")], none⟩ none⟩

/-- A target whose decode raises, as for a corrupted file. -/
def failItem (name : String) : Item :=
  ⟨name, .decodeError "UnidentifiedImageError" "cannot identify image file"⟩

/-- A successfully decoded image with no capture-date metadata at all. -/
def noDateItem (name : String) : Item := ⟨name, .opened ⟨none, none⟩ none⟩

/-- A target that decodes and carries a date but whose render/save raises. -/
def saveFailItem (name : String) : Item :=
  ⟨name, .opened ⟨some [(36867, "2023:07:04 10:11:12")], none⟩
    (some ("OSError", "No space left on device"))⟩

/-! ## draw_text_watermark (watermark_cli.py lines 172-224) -/

/-- One `draw.text` call as recorded on an image: position, text, fill, and
the stroke parameters of line 216. -/
structure DrawRec where
  x : Int
  y : Int
  text : String
  fill : String
  strokeWidth : Nat
  strokeFill : String
deriving DecidableEq

/-- A Pillow image object: color mode, pixel dimensions, and the draw calls
applied to its pixel data (glyph rasterization itself is the library's and
is not modelled beyond the recorded call). -/
structure PILImage where
  mode : String
  width : Int
  height : Int
  draws : List DrawRec
deriving DecidableEq

/-- The Python object heap restricted to images: objects are identified by
index, so aliasing and in-place mutation are observable. -/
abbrev Store := List PILImage

/-- Out-of-range default (never reached under the theorems' bounds). -/
def dfltImage : PILImage := ⟨"", 0, 0, []⟩

/-- `image.convert(mode)` (documented Pillow semantics): allocates and
returns a NEW image object in the requested mode; the receiver is
untouched. -/
def img_convert (s : Store) (i : Nat) (m : String) : Store × Nat :=
  (s ++ [{ s.getD i dfltImage with mode := m }], s.length)

/-- `image.copy()` (documented Pillow semantics): a new, independent
duplicate object. -/
def img_copy (s : Store) (i : Nat) : Store × Nat :=
  (s ++ [s.getD i dfltImage], s.length)

/-- `ImageDraw.Draw(im).text(...)`: draws IN PLACE on object `i`. -/
def img_draw_text (s : Store) (i : Nat) (r : DrawRec) : Store :=
  s.set i { s.getD i dfltImage with draws := (s.getD i dfltImage).draws ++ [r] }

/-- `_measure_text` (lines 187-209): the rendering backend's metric for the
string at the requested font size, modelled as a deterministic executable
function (the exact pixel values are Pillow's; the claims only need the
measurement to be some well-defined pair). -/
def measure_text (text : String) (fontSize : Nat) : Int × Int :=
  (Int.ofNat (fontSize * text.length), Int.ofNat fontSize)

/-- Embedding of `draw_text_watermark`: a non-RGBA input is converted to
RGBA (a fresh object), an RGBA input is copied; the text is measured and
placed by `compute_position` on the base's size with margin 12; the draw
(fill color, 2-pixel black stroke) mutates only the fresh base; finally a
non-RGBA input's result is converted back to the original mode.  Returns
the new heap and the index of the returned object. -/
def draw_text_watermark (s : Store) (i : Nat) (text : String) (fontSize : Nat)
    (fill : String) (position_key : String) : Store × Nat :=
  let img := s.getD i dfltImage
  let conv := if img.mode ≠ "RGBA" then img_convert s i "RGBA" else img_copy s i
  let s1 := conv.1
  let base := conv.2
  let tsz := measure_text text fontSize
  let baseImg := s1.getD base dfltImage
  let pos := compute_position (baseImg.width, baseImg.height) tsz position_key 12
  let s2 := img_draw_text s1 base ⟨pos.1, pos.2, text, fill, 2, "black"⟩
  if img.mode ≠ "RGBA" then img_convert s2 base img.mode else (s2, base)

end Watermark

namespace Watermark

/-- C2 counterexample: on the 5×5 canvas with a 1×1 text box (1 ≤ 5 on both
axes) the anchor `left_top` yields `(12, 12)`, and 12 > 5: the claimed bound
`x ≤ W` fails, so the claim quantified over every canvas size is false. -/
theorem compute_position_bounds_counterexample :
    (1 : Int) ≤ 5 ∧ (1 : Int) ≤ 5 ∧
    compute_position (5, 5) (1, 1) "left_top" 12 = (12, 12) ∧
    ¬ ((compute_position (5, 5) (1, 1) "left_top" 12).1 ≤ 5) := by
  refine ⟨by norm_num, by norm_num, by decide, by decide⟩

/-- C2 amended: for canvases at least as large as the margin (12 ≤ W and
12 ≤ H) and any text box with 0 ≤ w ≤ W and 0 ≤ h ≤ H, every position key
(the 7 anchors and the fallback alike) yields 0 ≤ x ≤ W and 0 ≤ y ≤ H. -/
theorem compute_position_bounds (W H w h : Int) (key : String)
    (hw0 : 0 ≤ w) (hwW : w ≤ W) (hh0 : 0 ≤ h) (hhH : h ≤ H)
    (hW : 12 ≤ W) (hH : 12 ≤ H) :
    0 ≤ (compute_position (W, H) (w, h) key 12).1 ∧
    (compute_position (W, H) (w, h) key 12).1 ≤ W ∧
    0 ≤ (compute_position (W, H) (w, h) key 12).2 ∧
    (compute_position (W, H) (w, h) key 12).2 ≤ H := by
  have hfd : ∀ a b : Int, 0 ≤ a → a ≤ b → 0 ≤ Int.fdiv (b - a) 2 ∧ Int.fdiv (b - a) 2 ≤ b := by
    intro a b ha hab
    rw [Int.fdiv_eq_ediv _ (by norm_num)]
    omega
  have hWw := hfd w W hw0 hwW
  have hHh := hfd h H hh0 hhH
  unfold compute_position
  split_ifs <;> simp only <;> refine ⟨?_, ?_, ?_, ?_⟩ <;> omega

/-- C2 amended, witness at a concrete input. -/
theorem compute_position_bounds_witness :
    0 ≤ (compute_position (100, 80) (40, 20) "right_bottom" 12).1 ∧
    (compute_position (100, 80) (40, 20) "right_bottom" 12).1 ≤ 100 ∧
    0 ≤ (compute_position (100, 80) (40, 20) "right_bottom" 12).2 ∧
    (compute_position (100, 80) (40, 20) "right_bottom" 12).2 ≤ 80 :=
  compute_position_bounds 100 80 40 20 "right_bottom" (by norm_num) (by norm_num)
    (by norm_num) (by norm_num) (by norm_num) (by norm_num)

/-- C5: `compute_position` with margin 12 agrees with the spec's 7-anchor
formula table on every key, the fallback for unknown keys included (the
fallback returns `(12, 12)`, the `left_top` coordinates). -/
theorem compute_position_matches_table (W H w h : Int) (key : String) :
    compute_position (W, H) (w, h) key 12 = spec_anchor_table W H w h key ∧
    (key ∉ anchorKeys →
      compute_position (W, H) (w, h) key 12 =
        compute_position (W, H) (w, h) "left_top" 12) := by
  constructor
  · simp only [compute_position, spec_anchor_table]
  · intro hk
    simp only [anchorKeys, List.mem_cons, List.not_mem_nil, or_false] at hk
    push_neg at hk
    obtain ⟨h1, h2, h3, h4, h5, h6, h7⟩ := hk
    simp [compute_position, if_neg h1, if_neg h2, if_neg h3, if_neg h4,
      if_neg h5, if_neg h6, if_neg h7]

/-- C5 witness: the unknown-key conjunct at the key `"florp"`. -/
theorem compute_position_matches_table_witness :
    compute_position (200, 100) (40, 20) "florp" 12 =
      compute_position (200, 100) (40, 20) "left_top" 12 :=
  (compute_position_matches_table 200 100 40 20 "florp").2 (by decide)

/-- C6: the colon-delimited EXIF value `"2023:07:04 10:11:12"` normalizes to
`"2023-07-04"`; the hyphen-delimited `"2023-07-04 10:11:12"` also normalizes
to `"2023-07-04"` (the colon format fails on it, so the hyphen fallback is the
one that fires); a missing/empty tag dictionary yields `none`; and any value
rejected by both formats yields `none` rather than an exception. -/
theorem extract_exif_date_normalizes :
    extract_exif_date ⟨some [(36867, "2023:07:04 10:11:12")], none⟩ = some "2023-07-04" ∧
    extract_exif_date ⟨some [(306, "2023-07-04 10:11:12")], none⟩ = some "2023-07-04" ∧
    parse3 ':' (firstToken "2023-07-04 10:11:12") = none ∧
    (∀ m : ImageMeta, dateValueOf m = none → extract_exif_date m = none) ∧
    extract_exif_date ⟨some [], none⟩ = none ∧
    (∀ v : String, parse_date_value v = none →
      extract_exif_date ⟨some [(36867, v)], none⟩ = none) := by
  refine ⟨by decide, by decide, by decide, ?_, by decide, ?_⟩
  · intro m hm
    simp [extract_exif_date, hm]
  · intro v hv
    by_cases hv0 : v = ""
    · subst hv0; decide
    · simp [extract_exif_date, dateValueOf, tagDateValue, truthyGet, List.lookup,
        hv0, hv, Option.orElse]

/-- C6 witness: the two hypothesis-bearing conjuncts applied at concrete
inputs (a metadata-free image, and a value neither format parses). -/
theorem extract_exif_date_normalizes_witness :
    extract_exif_date ⟨none, none⟩ = none ∧
    extract_exif_date ⟨some [(36867, "not a date")], none⟩ = none :=
  ⟨extract_exif_date_normalizes.2.2.2.1 ⟨none, none⟩ (by decide),
   extract_exif_date_normalizes.2.2.2.2.2 "not a date" (by decide)⟩

/-- C9: whenever the first space-delimited token of the value splits into
three integer-parsable fields on ":" — or, that failing, on "-" — the result
is the zero-padded `YYYY-MM-DD` date; in particular a bare date with no time
portion (`"2023:07:04"`) and non-padded components (`"2023:7:4"`) are
accepted, not treated as no-date. -/
theorem extract_exif_date_pads_and_accepts_bare_dates :
    (∀ (v : String) (y mo d : Int), parse3 ':' (firstToken v) = some (y, mo, d) →
      parse_date_value v = some (fmt_date y mo d)) ∧
    (∀ (v : String) (y mo d : Int), parse3 ':' (firstToken v) = none →
      parse3 '-' (firstToken v) = some (y, mo, d) →
      parse_date_value v = some (fmt_date y mo d)) ∧
    parse_date_value "2023:07:04" = some "2023-07-04" ∧
    parse_date_value "2023:7:4" = some "2023-07-04" ∧
    extract_exif_date ⟨some [(36867, "2023:7:4")], none⟩ = some "2023-07-04" := by
  refine ⟨?_, ?_, by decide, by decide, by decide⟩
  · intro v y mo d hc
    simp [parse_date_value, hc]
  · intro v y mo d hc hh
    simp [parse_date_value, hc, hh]

/-- C9 witness: both hypothesis-bearing conjuncts at concrete values
(`"5:6:7"` parses on ":"; `"5-6-7"` fails on ":" and parses on "-"). -/
theorem extract_exif_date_pads_witness :
    parse_date_value "5:6:7" = some "0005-06-07" ∧
    parse_date_value "5-6-7" = some "0005-06-07" :=
  ⟨extract_exif_date_pads_and_accepts_bare_dates.1 "5:6:7" 5 6 7 (by decide),
   extract_exif_date_pads_and_accepts_bare_dates.2.1 "5-6-7" 5 6 7 (by decide) (by decide)⟩

/-- C8: every alias of the closed `cn_to_en` table maps to its canonical
English name; in particular `"白色"` returns the very literal `"white"` that
the English input `"white"` passes through; and any input whose stripped,
lower-cased form misses the table is returned unchanged, rejection being left
to the downstream `ImageColor.getrgb` validator. -/
theorem normalize_color_input_spec :
    (∀ p ∈ cn_to_en, normalize_color_input p.1 = p.2) ∧
    normalize_color_input "白色" = "white" ∧
    normalize_color_input "white" = "white" ∧
    (∀ s : String, cn_to_en.lookup (canonColor s) = none →
      normalize_color_input s = s) := by
  refine ⟨by decide, by decide, by decide, ?_⟩
  intro s hs
  simp [normalize_color_input, hs]

/-- C8 witness: the table conjunct at the `"白色"` entry, and the
pass-through conjunct at the hex triple `"#FFFFFF"`. -/
theorem normalize_color_input_spec_witness :
    normalize_color_input "白色" = "white" ∧
    normalize_color_input "#FFFFFF" = "#FFFFFF" :=
  ⟨normalize_color_input_spec.1 ("白色", "white") (by decide),
   normalize_color_input_spec.2.2.2 "#FFFFFF" (by decide)⟩

/-! ### Shared lemmas about the batch driver -/

/-- Bumping the only reason the code ever records keeps the dict a
singleton. -/
theorem bumpReason_single (j : Nat) :
    bumpReason (if j = 0 then [] else [(noDateReason, j)]) noDateReason =
      [(noDateReason, j + 1)] := by
  cases j with
  | zero => rfl
  | succ n => simp [bumpReason]

/-- The tally fold, from a state reachable by the loop: counts add up and the
reason dict stays the singleton `无拍摄时间`. -/
theorem foldl_stepState (items : List Item) (p s j : Nat) :
    items.foldl (fun st it => stepState st (outcomeOf it))
        ⟨p, s, if j = 0 then [] else [(noDateReason, j)]⟩ =
      ⟨p + countOutcome .ok items, s + countOutcome .noDate items,
       if j + countOutcome .noDate items = 0 then []
       else [(noDateReason, j + countOutcome .noDate items)]⟩ := by
  induction items generalizing p s j with
  | nil => simp [countOutcome]
  | cons it tl ih =>
    simp only [List.foldl_cons]
    cases ho : outcomeOf it with
    | ok =>
      have hs : stepState ⟨p, s, if j = 0 then [] else [(noDateReason, j)]⟩ Outcome.ok
          = ⟨p + 1, s, if j = 0 then [] else [(noDateReason, j)]⟩ := rfl
      rw [hs, ih (p + 1) s j]
      simp [countOutcome, ho, RunState.mk.injEq, Nat.add_assoc]
    | noDate =>
      have hs : stepState ⟨p, s, if j = 0 then [] else [(noDateReason, j)]⟩ Outcome.noDate
          = ⟨p, s + 1, bumpReason (if j = 0 then [] else [(noDateReason, j)]) noDateReason⟩ := rfl
      have hj : [(noDateReason, j + 1)] =
          if j + 1 = 0 then [] else [(noDateReason, j + 1)] := by simp
      rw [hs, bumpReason_single j, hj, ih p (s + 1) (j + 1)]
      simp [countOutcome, ho, RunState.mk.injEq, Nat.add_assoc]
    | failed =>
      have hs : stepState ⟨p, s, if j = 0 then [] else [(noDateReason, j)]⟩ Outcome.failed
          = ⟨p, s, if j = 0 then [] else [(noDateReason, j)]⟩ := rfl
      rw [hs, ih p s j]
      simp [countOutcome, ho]

/-- The final tallies, in closed form. -/
theorem finalState_eq (items : List Item) :
    finalState items =
      ⟨countOutcome .ok items, countOutcome .noDate items,
       if countOutcome .noDate items = 0 then []
       else [(noDateReason, countOutcome .noDate items)]⟩ := by
  have h := foldl_stepState items 0 0 0
  simpa [finalState, initState] using h

/-- With no hard failure in the batch, `ok` and `noDate` outcomes partition
the targets. -/
theorem countOutcome_partition (items : List Item)
    (h : ∀ it ∈ items, outcomeOf it ≠ .failed) :
    countOutcome .ok items + countOutcome .noDate items = items.length := by
  induction items with
  | nil => simp [countOutcome]
  | cons it tl ih =>
    have hit := h it (by simp)
    have htl := ih (fun x hx => h x (by simp [hx]))
    cases ho : outcomeOf it
    · simp [countOutcome, ho]; omega
    · simp [countOutcome, ho]; omega
    · exact absurd ho hit

/-- `savesOf` distributes over trace concatenation. -/
theorem savesOf_append (l₁ l₂ : List Effect) :
    savesOf (l₁ ++ l₂) = savesOf l₁ ++ savesOf l₂ :=
  List.filterMap_append ..

/-- The saves one target contributes. -/
theorem savesOf_itemEffects (out : FPath) (it : Item) :
    savesOf (itemEffects out it) =
      if outcomeOf it = .ok then [out ++ [it.name]] else [] := by
  cases hb : it.behavior with
  | decodeError c m => simp [savesOf, itemEffects, outcomeOf, hb]
  | opened meta err =>
    cases he : extract_exif_date meta with
    | none => simp [savesOf, itemEffects, outcomeOf, hb, he]
    | some d =>
      cases err with
      | none => simp [savesOf, itemEffects, outcomeOf, hb, he]
      | some cm => simp [savesOf, itemEffects, outcomeOf, hb, he]

/-- The saves of a whole batch: one per `ok` target, same filename, in
order. -/
theorem savesOf_flatMap (out : FPath) (items : List Item) :
    savesOf (items.flatMap (itemEffects out)) =
      (items.filter (fun it => decide (outcomeOf it = .ok))).map
        (fun it => out ++ [it.name]) := by
  induction items with
  | nil => simp [savesOf]
  | cons it tl ih =>
    rw [List.flatMap_cons, savesOf_append, ih, savesOf_itemEffects]
    by_cases ho : outcomeOf it = .ok
    · simp [List.filter_cons, ho]
    · simp [List.filter_cons, ho]

/-- The summary line never coincides with the no-images message. -/
theorem summaryMsg_ne_noImagesMsg (st : RunState) (out : FPath) :
    summaryMsg st out ≠ noImagesMsg := by
  have key : ∀ r : String, "完成。处理成功 " ++ r ≠ noImagesMsg := by
    intro r h
    have h2 := congrArg String.data h
    rw [String.data_append] at h2
    have h3 : "完成。处理成功 ".data = '完' :: "成。处理成功 ".data := rfl
    have h4 : noImagesMsg.data = '未' :: "发现可处理的图片（jpg/jpeg/png）。".data := rfl
    rw [h3, h4] at h2
    simp at h2
  unfold summaryMsg
  split_ifs <;> simpa [String.append_assoc] using key _

/-- C1 counterexample: for the input directory `home/photos` the code's
output directory is `home/photos/photos_watermark` — a child of the input
directory, not its sibling (their parents differ), refuting the claimed
sibling placement. -/
theorem ensure_output_dir_not_sibling :
    ensure_output_dir ["home", "photos"] = ["home", "photos", "photos_watermark"] ∧
    parentPath (ensure_output_dir ["home", "photos"]) ≠ parentPath ["home", "photos"] := by
  decide

/-- C1 amended: the output directory is a subdirectory (child) of the input
directory `D`, named `<D's-name>_watermark`; `process_targets` issues its
`mkdir(exist_ok=True)` (create if missing, reuse if present) before anything
else; and the batch's saved files are exactly one per successfully processed
target, under the unchanged input filename. -/
theorem ensure_output_dir_child_same_filenames
    (base : FPath) (items : List Item) (fsz : Nat) :
    parentPath (ensure_output_dir base) = base ∧
    pathName (ensure_output_dir base) = pathName base ++ "_watermark" ∧
    (process_targets base items fsz).head? =
      some (Effect.mkdirOut (ensure_output_dir base)) ∧
    savesOf (process_targets base items fsz) =
      (items.filter (fun it => decide (outcomeOf it = .ok))).map
        (fun it => ensure_output_dir base ++ [it.name]) := by
  refine ⟨List.dropLast_concat, ?_, ?_, ?_⟩
  · unfold ensure_output_dir pathName
    rw [List.getLast?_concat]
    rfl
  · simp [process_targets]
  · by_cases hemp : items.isEmpty = true
    · have h0 : items = [] := List.isEmpty_iff.mp hemp
      subst h0
      rfl
    · have hpt : process_targets base items fsz =
          Effect.mkdirOut (ensure_output_dir base) :: Effect.loadFont fsz ::
            (items.flatMap (itemEffects (ensure_output_dir base)) ++
             [Effect.printLine (summaryMsg (finalState items) (ensure_output_dir base))]) := by
        simp only [process_targets, hemp, Bool.false_eq_true, if_false]
      rw [hpt]
      have h2 : savesOf (Effect.mkdirOut (ensure_output_dir base) :: Effect.loadFont fsz ::
          (items.flatMap (itemEffects (ensure_output_dir base)) ++
           [Effect.printLine (summaryMsg (finalState items) (ensure_output_dir base))])) =
          savesOf (items.flatMap (itemEffects (ensure_output_dir base)) ++
           [Effect.printLine (summaryMsg (finalState items) (ensure_output_dir base))]) := rfl
      rw [h2, savesOf_append, savesOf_flatMap]
      simp [savesOf]

/-- C3 counterexample: appending a failing target — a decode failure or a
render/save failure alike — to a batch changes no tally and not even the
printed summary line: the failure is logged but is NOT "tallied as a failure
count distinct from the no-date skip count"; no such count exists anywhere in
the run's state or summary. -/
theorem process_targets_no_failure_tally :
    outcomeOf (failItem "b.jpg") = .failed ∧
    outcomeOf (saveFailItem "d.jpg") = .failed ∧
    finalState [okItem "a.jpg", failItem "b.jpg"] = finalState [okItem "a.jpg"] ∧
    finalState [okItem "a.jpg", saveFailItem "d.jpg"] = finalState [okItem "a.jpg"] ∧
    summaryMsg (finalState [okItem "a.jpg", failItem "b.jpg"])
        (ensure_output_dir ["photos"]) =
      summaryMsg (finalState [okItem "a.jpg"]) (ensure_output_dir ["photos"]) ∧
    summaryMsg (finalState [okItem "a.jpg", saveFailItem "d.jpg"])
        (ensure_output_dir ["photos"]) =
      summaryMsg (finalState [okItem "a.jpg"]) (ensure_output_dir ["photos"]) := by
  decide

/-- C3 amended: a per-item exception of either kind — `Image.open` raising
(decode failure), or the render/save calls raising after a date was found —
is caught and logged with the exception class name and message, and the batch
is not aborted: every target after the failing one contributes its effects
exactly as it would without the failure.  But the failure is not tallied: the
final state (and hence the summary) is that of the batch without the failing
item. -/
theorem process_targets_failure_logged_continues
    (base : FPath) (fsz : Nat) (pre post : List Item) (fi : Item) (c m : String)
    (hfail : fi.behavior = .decodeError c m ∨
      ∃ meta d, fi.behavior = .opened meta (some (c, m)) ∧
        extract_exif_date meta = some d) :
    process_targets base (pre ++ fi :: post) fsz =
      Effect.mkdirOut (ensure_output_dir base) :: Effect.loadFont fsz ::
        (pre.flatMap (itemEffects (ensure_output_dir base)) ++
          (Effect.printLine (failMsg fi.name c m) ::
            (post.flatMap (itemEffects (ensure_output_dir base)) ++
              [Effect.printLine
                (summaryMsg (finalState (pre ++ post)) (ensure_output_dir base))]))) ∧
    finalState (pre ++ fi :: post) = finalState (pre ++ post) := by
  have hout : outcomeOf fi = .failed := by
    rcases hfail with h | ⟨meta, d, hb, he⟩
    · simp [outcomeOf, h]
    · simp [outcomeOf, hb, he]
  have heff : itemEffects (ensure_output_dir base) fi =
      [Effect.printLine (failMsg fi.name c m)] := by
    rcases hfail with h | ⟨meta, d, hb, he⟩
    · simp [itemEffects, h]
    · simp [itemEffects, hb, he]
  have hfs : finalState (pre ++ fi :: post) = finalState (pre ++ post) := by
    unfold finalState
    rw [List.foldl_append, List.foldl_cons, List.foldl_append]
    simp only [hout]
    rfl
  refine ⟨?_, hfs⟩
  have hemp : (pre ++ fi :: post).isEmpty = false := by
    cases pre <;> rfl
  simp only [process_targets, hemp, Bool.false_eq_true, if_false, hfs,
    List.flatMap_append, List.flatMap_cons, heff]
  simp [List.append_assoc]

/-- C3 witness: the render/save-failure case, with a target that decodes and
has a date but whose save raises, between two processed targets. -/
theorem process_targets_failure_logged_continues_witness :
    finalState [okItem "a.jpg", saveFailItem "d.jpg", okItem "e.jpg"] =
      finalState [okItem "a.jpg", okItem "e.jpg"] :=
  (process_targets_failure_logged_continues ["photos"] 36 [okItem "a.jpg"]
    [okItem "e.jpg"] (saveFailItem "d.jpg") "OSError" "No space left on device"
    (Or.inr ⟨⟨some [(36867, "2023:07:04 10:11:12")], none⟩, "2023-07-04",
      rfl, by decide⟩)).2

/-- C4: a nonempty batch with no hard failure reports, in its final summary
line, exactly `N - M` processed and `M` skipped (`N` targets, `M` of them
without a capture date), with the skip count broken down by reason and the
output directory path appended. -/
theorem process_targets_summary_counts
    (base : FPath) (fsz : Nat) (items : List Item)
    (hne : items ≠ []) (hnf : ∀ it ∈ items, outcomeOf it ≠ .failed) :
    (finalState items).processed = items.length - countOutcome .noDate items ∧
    (finalState items).skipped = countOutcome .noDate items ∧
    process_targets base items fsz =
      Effect.mkdirOut (ensure_output_dir base) :: Effect.loadFont fsz ::
        (items.flatMap (itemEffects (ensure_output_dir base)) ++
          [Effect.printLine (summaryMsg (finalState items) (ensure_output_dir base))]) ∧
    (countOutcome .noDate items ≠ 0 →
      summaryMsg (finalState items) (ensure_output_dir base) =
        "完成。处理成功 " ++ toString (items.length - countOutcome .noDate items) ++
          " 张，跳过 " ++ toString (countOutcome .noDate items) ++ " 张（原因：" ++
          noDateReason ++ " " ++ toString (countOutcome .noDate items) ++
          " 张）。输出目录：" ++ pathStr (ensure_output_dir base)) ∧
    (countOutcome .noDate items = 0 →
      summaryMsg (finalState items) (ensure_output_dir base) =
        "完成。处理成功 " ++ toString items.length ++
          " 张，跳过 " ++ toString (0 : Nat) ++ " 张。输出目录：" ++
          pathStr (ensure_output_dir base)) := by
  have hpart := countOutcome_partition items hnf
  have hfs := finalState_eq items
  refine ⟨?_, ?_, ?_, ?_, ?_⟩
  · rw [hfs]
    show countOutcome Outcome.ok items =
      items.length - countOutcome Outcome.noDate items
    omega
  · rw [hfs]
  · have hemp : items.isEmpty = false := by
      cases items with
      | nil => exact absurd rfl hne
      | cons a l => rfl
    simp only [process_targets, hemp, Bool.false_eq_true, if_false]
  · intro hM
    rw [hfs]
    have hok : countOutcome Outcome.ok items =
        items.length - countOutcome Outcome.noDate items := by omega
    unfold summaryMsg
    rw [if_neg hM]
    simp [reasonsStr, joinBy, hok, String.append_assoc]
  · intro hM0
    rw [hfs, hM0]
    have hok : countOutcome Outcome.ok items = items.length := by omega
    unfold summaryMsg
    simp [hok, String.append_assoc]

/-- C4 witness: a two-target batch, one processed and one without a date,
tallies 1 processed and 1 skipped. -/
theorem process_targets_summary_counts_witness :
    (finalState [okItem "a.jpg", noDateItem "c.jpg"]).processed = 1 ∧
    (finalState [okItem "a.jpg", noDateItem "c.jpg"]).skipped = 1 := by
  have h := process_targets_summary_counts ["photos"] 36
    [okItem "a.jpg", noDateItem "c.jpg"] (by decide) (by decide)
  exact ⟨h.1.trans (by decide), h.2.1.trans (by decide)⟩

/-- C10: with an empty target set, `process_targets` still creates the
output directory and resolves the font — in that order, before anything is
printed — then prints only the no-images message and stops: no run summary
(for any tallies and any directory) occurs in the trace. -/
theorem process_targets_empty_still_prepares (base : FPath) (fsz : Nat) :
    process_targets base [] fsz =
      [Effect.mkdirOut (ensure_output_dir base), Effect.loadFont fsz,
       Effect.printLine noImagesMsg] ∧
    (∀ (st : RunState) (out : FPath),
      (process_targets base [] fsz).contains
        (Effect.printLine (summaryMsg st out)) = false) := by
  constructor
  · rfl
  · intro st out
    have h := summaryMsg_ne_noImagesMsg st out
    have heq : process_targets base [] fsz =
        [Effect.mkdirOut (ensure_output_dir base), Effect.loadFont fsz,
         Effect.printLine noImagesMsg] := rfl
    rw [heq]
    simp [List.contains_cons, beq_eq_false_iff_ne, h]

/-! ### Shared lemmas about the image heap -/

/-- Mutating the just-appended object replaces only it. -/
theorem store_set_last (l : Store) (a b : PILImage) :
    (l ++ [a]).set l.length b = l ++ [b] := by
  induction l with
  | nil => rfl
  | cons x xs ih => simp [List.set, ih]

/-- Reading the second of two appended objects. -/
theorem store_getElem?_pair (l : Store) (a b : PILImage) :
    (l ++ [a, b])[l.length + 1]? = some b := by
  have h1 : l ++ [a, b] = (l ++ [a]) ++ [b] := by simp
  have h2 : l.length + 1 = (l ++ [a]).length := by simp
  rw [h1, h2, List.getElem?_concat_length]

/-- Total-access version of `store_getElem?_pair`. -/
theorem store_getElem_pair (l : Store) (a b : PILImage)
    (h : l.length + 1 < (l ++ [a, b]).length) :
    (l ++ [a, b])[l.length + 1] = b := by
  have h2 := store_getElem?_pair l a b
  rw [List.getElem?_eq_getElem h] at h2
  exact Option.some.inj h2

/-- C7: `draw_text_watermark` never mutates the caller's image object — the
heap cell of the argument is unchanged — and the returned image has the same
color mode as the input (converted back when the input was not RGBA, and
already RGBA otherwise). -/
theorem draw_text_watermark_no_mutation_same_mode
    (s : Store) (i : Nat) (text : String) (fontSize : Nat)
    (fill position_key : String) (hi : i < s.length) :
    (draw_text_watermark s i text fontSize fill position_key).1.getD i dfltImage =
      s.getD i dfltImage ∧
    ((draw_text_watermark s i text fontSize fill position_key).1.getD
        (draw_text_watermark s i text fontSize fill position_key).2 dfltImage).mode =
      (s.getD i dfltImage).mode := by
  have hga : ∀ tail : Store, (s ++ tail)[i]? = s[i]? := fun tail => by
    rw [List.getElem?_append, if_pos hi]
  by_cases hm : (s[i]?.getD dfltImage).mode = "RGBA"
  · simp [draw_text_watermark, img_convert, img_copy, img_draw_text, hm,
      List.getD_eq_getElem?_getD, List.getElem?_concat_length, store_set_last,
      store_getElem?_pair, hga]
  · simp [draw_text_watermark, img_convert, img_copy, img_draw_text, hm,
      List.getD_eq_getElem?_getD, List.getElem?_concat_length, store_set_last,
      store_getElem?_pair, hga]
    rw [store_getElem_pair]

/-- C7 witness: a one-image heap holding an RGB photo. -/
theorem draw_text_watermark_no_mutation_witness :
    (draw_text_watermark [⟨"RGB", 100, 50, []⟩] 0 "2023-07-04" 36 "white"
        "right_bottom").1.getD 0 dfltImage =
      [(⟨"RGB", 100, 50, []⟩ : PILImage)].getD 0 dfltImage ∧
    ((draw_text_watermark [⟨"RGB", 100, 50, []⟩] 0 "2023-07-04" 36 "white"
        "right_bottom").1.getD
      (draw_text_watermark [⟨"RGB", 100, 50, []⟩] 0 "2023-07-04" 36 "white"
        "right_bottom").2 dfltImage).mode =
      ([(⟨"RGB", 100, 50, []⟩ : PILImage)].getD 0 dfltImage).mode :=
  draw_text_watermark_no_mutation_same_mode [⟨"RGB", 100, 50, []⟩] 0
    "2023-07-04" 36 "white" "right_bottom" (by decide)

end Watermark
